import Mathlib

/-!
Verification of the mb2-webinar-catalog event pipeline.

This file shallowly embeds the pure core of the repository — the field
extractor, date/time parser, event normalizer and catalog filter engine —
and proves (or refutes) the frozen specification claims about them.

Modelling conventions, used throughout:

* Timestamps are milliseconds since the Unix epoch, as `Nat`.  The page runs
  in the browser's local timezone; the embedding fixes the local offset at 0
  with no daylight-saving transitions, so local civil days are the aligned
  86 400 000 ms blocks.  In particular the JavaScript idiom
  `new Date(d.getFullYear(), d.getMonth(), d.getDate(), h, m, 0, 0)` (take a
  timestamp's civil date and rebuild a local time on that day) is embedded as
  the start of the timestamp's day plus `h` hours and `m` minutes, and
  `setHours(23, 59, 59, 999)` as the last millisecond of the day.
* A spreadsheet cell (`JsVal`) is a string, a number, or `null`; an absent
  key is the JavaScript `undefined`.  The sources consume numeric cells only
  through the `String(v)` coercion, so a number is carried as its decimal
  rendering.
* `new Date(string)` parsing is implementation-defined beyond the ISO 8601
  forms; the embedding `jsDateParse` models the ISO date-only form
  `YYYY-MM-DD` (interpreted at UTC midnight, years from 1970 on) and treats
  every other string as unparsable.  The feed's date column uses ISO forms.
* The regular-expression rewrites of `normalizeTime` are embedded as direct
  character-list scanners that reproduce JavaScript global-replace semantics
  (leftmost match, no rescan of replacements, `\b`/`\s`/`\w` on the ASCII
  alphabet actually reachable from the feed).
-/

/-! ## Time model -/

/-- Milliseconds per civil day. -/
def msPerDay : Nat := 86400000

/-- Milliseconds per hour. -/
def msPerHour : Nat := 3600000

/-- Milliseconds per minute. -/
def msPerMin : Nat := 60000

/-- Start (local midnight) of the civil day containing timestamp `t`. -/
def dayStart (t : Nat) : Nat := (t / msPerDay) * msPerDay

/-- The JavaScript `endOfDay` helper: copy the date and `setHours(23,59,59,999)`,
i.e. the last millisecond of the timestamp's civil day. -/
def endOfDay (t : Nat) : Nat := dayStart t + (msPerDay - 1)

/-- Gregorian leap-year test. -/
def isLeap (y : Nat) : Bool := (y % 4 = 0 && y % 100 != 0) || y % 400 = 0

/-- Number of days in month `m` (1–12) of year `y`. -/
def daysInMonth (y m : Nat) : Nat :=
  if m = 2 then (if isLeap y then 29 else 28)
  else if m = 4 || m = 6 || m = 9 || m = 11 then 30
  else 31

/-- Days in the years 1970 … `y`-1. -/
def daysBeforeYear (y : Nat) : Nat :=
  ((List.range (y - 1970)).map (fun k => if isLeap (1970 + k) then 366 else 365)).sum

/-- Days in the months 1 … `m`-1 of year `y`. -/
def daysBeforeMonth (y m : Nat) : Nat :=
  ((List.range (m - 1)).map (fun k => daysInMonth y (k + 1))).sum

/-- Day number (days since 1970-01-01) of the civil date `y`-`m`-`d`. -/
def daysFromCivil (y m d : Nat) : Nat :=
  daysBeforeYear y + daysBeforeMonth y m + (d - 1)

/-! ## Character classes (ASCII fragments of the JavaScript classes) -/

/-- The whitespace class: ASCII fragment of the JavaScript `\s` class and of
the characters removed by `String.prototype.trim`. -/
def isWs (c : Char) : Bool :=
  c = ' ' || c = '\t' || c = '\n' || c = '\r' || c = '\u000b' || c = '\u000c'

/-- The JavaScript word class `\w` = `[A-Za-z0-9_]`, used by `\b`. -/
def wordChar (c : Char) : Bool := c.isAlpha || c.isDigit || c = '_'

/-- A `\b` word boundary holds before the scan position when the previous
character (`none` at the start of the string) is not a word character. -/
def boundaryL : Option Char → Bool
  | none => true
  | some c => !wordChar c

/-- A `\b` word boundary holds after a match when the following text is empty
or starts with a non-word character. -/
def boundaryR : List Char → Bool
  | [] => true
  | c :: _ => !wordChar c

/-- Drop whitespace from both ends: the JavaScript `String.prototype.trim`
on the character-list representation. -/
def trimWs (l : List Char) : List Char :=
  ((l.dropWhile isWs).reverse.dropWhile isWs).reverse

/-- The JavaScript `trim` on strings. -/
def jsTrim (s : String) : String := String.mk (trimWs s.data)

/-- The JavaScript `toLowerCase()` on the ASCII alphabet. -/
def lowerStr (s : String) : String := String.mk (s.data.map Char.toLower)

/-- Numeric value of a decimal digit character. -/
def digitVal (c : Char) : Nat := c.toNat - 48

/-- Value of a list of decimal digit characters, most significant first. -/
def natOfDigits (l : List Char) : Nat :=
  l.foldl (fun a c => a * 10 + digitVal c) 0

/-- The decimal digit character for `d` (`d` is taken mod 10 by the callers). -/
def decDigit : Nat → Char
  | 0 => '0' | 1 => '1' | 2 => '2' | 3 => '3' | 4 => '4'
  | 5 => '5' | 6 => '6' | 7 => '7' | 8 => '8' | _ => '9'

/-- Fuelled accumulator loop producing the decimal digits of `n`. -/
def natDecGo : Nat → Nat → List Char → List Char
  | 0, _, acc => acc
  | fuel + 1, n, acc =>
    if n < 10 then decDigit n :: acc
    else natDecGo fuel (n / 10) (decDigit (n % 10) :: acc)

/-- Decimal rendering of a natural number: the JavaScript template-literal
rendering `${i}` of a non-negative integer index. -/
def natDec (n : Nat) : String := String.mk (natDecGo (n + 1) n [])

/-! ## Spreadsheet values -/

/-- A spreadsheet cell value: a string, a number (carried as its JavaScript
decimal rendering, since the sources consume numbers only via `String(v)`),
or `null`.  An absent key plays the role of `undefined`. -/
inductive JsVal where
  | vstr : String → JsVal
  | vnum : String → JsVal
  | vnull : JsVal
deriving DecidableEq

/-- A raw feed row: a string-keyed map of cells, as an association list. -/
abbrev RawRow := List (String × JsVal)

/-- JavaScript property access `row[k]`: `none` models `undefined`. -/
def lookupKey (row : RawRow) (k : String) : Option JsVal :=
  (List.find? (fun p => p.1 = k) row).map (fun p => p.2)

/-- The JavaScript `String(v)` coercion on cell values. -/
def jsToString : JsVal → String
  | JsVal.vstr s => s
  | JsVal.vnum s => s
  | JsVal.vnull => "null"

/-! ## ISO date parsing (`new Date(string)` model) -/

/-- Modelled fragment of `new Date(string)`: the ISO 8601 date-only form
`YYYY-MM-DD`, interpreted as UTC midnight, restricted to years ≥ 1970.
Every other string is treated as unparsable (`none`, the `NaN` date). -/
def jsDateParse (s : String) : Option Nat :=
  match s.data with
  | [y1, y2, y3, y4, h1, m1, m2, h2, d1, d2] =>
    if h1 = '-' && h2 = '-'
        && ([y1, y2, y3, y4, m1, m2, d1, d2].all Char.isDigit) then
      let y := natOfDigits [y1, y2, y3, y4]
      let m := natOfDigits [m1, m2]
      let d := natOfDigits [d1, d2]
      if 1970 ≤ y && 1 ≤ m && m ≤ 12 && 1 ≤ d && d ≤ daysInMonth y m then
        some (daysFromCivil y m d * msPerDay)
      else none
    else none
  | _ => none

/-! ## JavaScript numeric conversion for digit/dot strings -/

/-- Keep only decimal digits and dots: the `replace(/[^\d.]/g, "")` step. -/
def digitsDots (s : String) : String :=
  String.mk (s.data.filter (fun c => c.isDigit || c = '.'))

/-- The JavaScript `Number(s)` conversion for strings made of digits and dots
(the only inputs it receives in the sources): the empty string is 0, a string
with at least one digit and at most one dot is its decimal value, anything
else is `NaN` (`none`).  Values are exact rationals; the float rounding of
JavaScript is immaterial to the claims. -/
def jsNumber (s : String) : Option ℚ :=
  if s.data.isEmpty then some 0
  else if s.data.all (fun c => c.isDigit || c = '.')
        && s.data.count '.' ≤ 1
        && s.data.any Char.isDigit then
    let intPart := s.data.takeWhile (fun c => c ≠ '.')
    let frac := (s.data.dropWhile (fun c => c ≠ '.')).drop 1
    some (mkRat (natOfDigits intPart * 10 ^ frac.length + natOfDigits frac) (10 ^ frac.length))
  else none

/-! ## App.jsx (second draft): time normalization and start-time parsing

Namespace `A2` embeds the draft that derives a precise `startAt`:
`normalizeTime`, `parseEventStart`, and the `upcomingItems` past filter. -/

namespace A2

/-- Case-insensitive literal match: `matchCI pat l` consumes `pat` (up to
ASCII case) from the front of `l` and returns the rest, or `none`. -/
def matchCI : List Char → List Char → Option (List Char)
  | [], rest => some rest
  | _ :: _, [] => none
  | p :: ps, c :: cs => if c.toLower = p.toLower then matchCI ps cs else none

/-- Try each alternative of the alternation in order (the alternatives used
here are pairwise non-overlapping, so order is immaterial); on success return
the pattern's last character (for the following `\b` bookkeeping) and the
unconsumed rest of the input. -/
def tryToks : List (List Char) → List Char → Option (Char × List Char)
  | [], _ => none
  | p :: ps, l =>
    match matchCI p l with
    | some rest => some (p.getLastD '?', rest)
    | none => tryToks ps l

/-- Fuelled scanner for `str.replace(/\b(alt₁|alt₂|…)\b/gi, "")`: global
left-to-right scan over the original string, removing each word-bounded,
case-insensitive occurrence of an alternative.  `prev` is the character
before the scan position in the original string. -/
def stripToksGo (pats : List (List Char)) : Nat → Option Char → List Char → List Char
  | 0, _, l => l
  | _ + 1, _, [] => []
  | fuel + 1, prev, c :: cs =>
    match (if boundaryL prev then tryToks pats (c :: cs) else none) with
    | some (lastc, rest) =>
      if boundaryR rest then stripToksGo pats fuel (some lastc) rest
      else c :: stripToksGo pats fuel (some c) cs
    | none => c :: stripToksGo pats fuel (some c) cs

/-- `str.replace(/\b(…)\b/gi, "")` for a list of literal alternatives. -/
def stripToks (pats : List String) (l : List Char) : List Char :=
  stripToksGo (pats.map String.data) (l.length + 1) none l

/-- The timezone names stripped by `normalizeTime`. -/
def tzNames : List String :=
  ["CENTRAL TIME", "MOUNTAIN TIME", "PACIFIC TIME", "EASTERN TIME"]

/-- The timezone abbreviations stripped by `normalizeTime`. -/
def tzAbbrs : List String := ["CST", "CDT", "MST", "MDT", "PST", "PDT", "EST", "EDT"]

/-- Fuelled scanner for `replace(/\s*-\s*/g, " - ")`: each maximal
whitespace-hyphen-whitespace group becomes a single " - ". -/
def hyphenNormGo : Nat → List Char → List Char
  | 0, l => l
  | _ + 1, [] => []
  | fuel + 1, c :: cs =>
    if c = '-' then ' ' :: '-' :: ' ' :: hyphenNormGo fuel (cs.dropWhile isWs)
    else if isWs c then
      match (c :: cs).dropWhile isWs with
      | '-' :: rest => ' ' :: '-' :: ' ' :: hyphenNormGo fuel (rest.dropWhile isWs)
      | _ => c :: hyphenNormGo fuel cs
    else c :: hyphenNormGo fuel cs

/-- `replace(/(\d)(AM|PM)\b/gi, "$1 $2")`: insert a space between a digit and
an immediately following am/pm marker (any case, kept as written). -/
def spaceAmPm : List Char → List Char
  | d :: a :: m :: rest =>
    if d.isDigit && (a.toLower = 'a' || a.toLower = 'p') && m.toLower = 'm'
        && boundaryR rest then
      d :: ' ' :: a :: m :: spaceAmPm rest
    else d :: spaceAmPm (a :: m :: rest)
  | l => l

/-- `replace(/\bXY\b/g, "xy")` for a two-character case-sensitive word:
used for `\bAM\b → am` and `\bPM\b → pm`. -/
def lowerWord (u1 u2 l1 l2 : Char) : Option Char → List Char → List Char
  | prev, a :: b :: rest =>
    if a = u1 && b = u2 && boundaryL prev && boundaryR rest then
      l1 :: l2 :: lowerWord u1 u2 l1 l2 (some b) rest
    else a :: lowerWord u1 u2 l1 l2 (some a) (b :: rest)
  | _, l => l

/-- `replace(/\s+/g, " ")`: each maximal whitespace run becomes one space. -/
def collapseWs : List Char → List Char
  | [] => []
  | [c] => [if isWs c then ' ' else c]
  | c :: d :: rest =>
    if isWs c && isWs d then collapseWs (d :: rest)
    else (if isWs c then ' ' else c) :: collapseWs (d :: rest)

/-- `replace(/\s(am|pm)\b/g, "$1")`: remove the space before a lowercase
am/pm word. -/
def glueAmPm : List Char → List Char
  | s :: a :: m :: rest =>
    if isWs s && (a = 'a' || a = 'p') && m = 'm' && boundaryR rest then
      a :: m :: glueAmPm rest
    else s :: glueAmPm (a :: m :: rest)
  | l => l

/-- The `normalizeTime` display normalizer of App.jsx (second draft): strip
US timezone names and abbreviations, normalize hyphen spacing, split a digit
from a following am/pm, lowercase word-bounded AM/PM, collapse whitespace and
trim, then glue the (now lowercase) am/pm back onto the preceding token. -/
def normalizeTime (timeStr : String) : String :=
  let t := jsTrim timeStr
  if t = "" then ""
  else
    let l := stripToks tzNames t.data
    let l := stripToks tzAbbrs l
    let l := hyphenNormGo (l.length + 1) l
    let l := spaceAmPm l
    let l := lowerWord 'A' 'M' 'a' 'm' none l
    let l := lowerWord 'P' 'M' 'p' 'm' none l
    let l := trimWs (collapseWs l)
    let l := glueAmPm l
    String.mk l

/-- The anchored match `t.match(/^(\d{1,2})(?::(\d{2}))?/)`: leading one- or
two-digit hour (greedy) and optional two-digit minutes after a colon. -/
def startTok (t : String) : Option (Nat × Nat) :=
  match t.data with
  | [] => none
  | c1 :: rest =>
    if c1.isDigit then
      match rest with
      | c2 :: rest2 =>
        if c2.isDigit then some (10 * digitVal c1 + digitVal c2, minutesOf rest2)
        else some (digitVal c1, minutesOf (c2 :: rest2))
      | [] => some (digitVal c1, 0)
    else none
where
  /-- The optional `(?::(\d{2}))?` group: two digits after a colon, else 0. -/
  minutesOf : List Char → Nat
  | ':' :: d1 :: d2 :: _ =>
    if d1.isDigit && d2.isDigit then 10 * digitVal d1 + digitVal d2 else 0
  | _ => 0

/-- The search `t.match(/\b(am|pm)\b/i)`: first word-bounded am/pm anywhere
in the string, case-insensitive; `some true` means pm. -/
def ampmFind : Option Char → List Char → Option Bool
  | prev, a :: m :: rest =>
    if boundaryL prev && (a.toLower = 'a' || a.toLower = 'p') && m.toLower = 'm'
        && boundaryR rest then
      some (a.toLower = 'p')
    else ampmFind (some a) (m :: rest)
  | _, _ => none

/-- `parseEventStart(dateStr, timeStr)` of App.jsx (second draft): parse the
nominal date; default the time to 12:00 local noon; if the normalized time
string starts with an hour token use it, converting via the 12-hour rules
when a word-bounded am/pm marker occurs anywhere in the normalized string;
rebuild a local timestamp on the nominal date's civil day.  An unparsable
date yields `none`. -/
def parseEventStart (dateStr timeStr : String) : Option Nat :=
  match jsDateParse (jsTrim dateStr) with
  | none => none
  | some base =>
    let t := normalizeTime timeStr
    let hm : Nat × Nat :=
      if t = "" then (12, 0)
      else
        match startTok t with
        | none => (12, 0)
        | some (h, m) =>
          match ampmFind none t.data with
          | none => (h, m)
          | some isPm =>
            (if h = 12 then (if isPm then 12 else 0)
             else (if isPm then h + 12 else h), m)
    some (dayStart base + hm.1 * msPerHour + hm.2 * msPerMin)

/-- A parsed catalog item of App.jsx (second draft).  String cells that were
`undefined`/`null` in the row are carried as `""` (their `safeStr` image);
`date` and `time` hold the raw source strings. -/
structure Item where
  id : String
  title : String
  presenter : String
  description : String
  ce : String
  cost : String
  link : String
  thumb : String
  date : String
  time : String
  categories : List String
  startAt : Option Nat

/-- The `upcomingItems` past filter of App.jsx (second draft): keep an item
when `!i.startAt || i.startAt >= now`.  The source reads the clock per item;
the claims fix a single instant `now`. -/
def upcomingItems (items : List Item) (now : Nat) : List Item :=
  items.filter (fun i =>
    match i.startAt with
    | none => true
    | some t => decide (now ≤ t))

end A2

/-! ## part_002 (prod draft): field extractor, normalizer, filter engine

Namespace `P2` embeds the production draft: the variadic `get` field
extractor, the row `normalize`, and the `filtered` pipeline that hides past
events, applies the facet filters and the free-text search, and sorts. -/

namespace P2

/-- One registration opportunity of an event. -/
structure Session where
  label : String
  url : String
deriving DecidableEq

/-- A normalized catalog event (the record built by `normalize`). -/
structure Event where
  id : String
  title : String
  description : String
  date : Option Nat
  category : String
  ce : Option ℚ
  vendor : String
  vendorLogo : String
  thumb : String
  format : String
  roles : List String
  location : String
  inPersonRegistrationLink : String
  sessions : List Session
deriving DecidableEq

/-- The field extractor `get(...keys)`: return the first candidate key whose
value is defined, non-null, and non-empty after `String(v).trim()`; the
trimmed string is returned, else the empty string. -/
def get (row : RawRow) : List String → String
  | [] => ""
  | k :: ks =>
    match lookupKey row k with
    | some v =>
      if v ≠ JsVal.vnull ∧ jsTrim (jsToString v) ≠ "" then jsTrim (jsToString v)
      else get row ks
    | none => get row ks

/-- Whether key `k` of `row` holds a defined, non-null, non-blank value —
the acceptance test inside `get`. -/
def qualifies (row : RawRow) (k : String) : Bool :=
  match lookupKey row k with
  | some v => decide (v ≠ JsVal.vnull ∧ jsTrim (jsToString v) ≠ "")
  | none => false

/-- `splitCsv`: split on commas, trim the parts, drop empties. -/
def splitCsv (v : String) : List String :=
  let s := jsTrim v
  if s = "" then []
  else ((s.splitOn ",").map jsTrim).filter (fun x => x ≠ "")

/-- `parseDate`: trim, treat the empty string as no date, otherwise attempt
calendar parsing; an invalid date is `none`. -/
def parseDate (v : String) : Option Nat :=
  let s := jsTrim v
  if s = "" then none else jsDateParse s

/-- The CE-hours derivation of `normalize`: delete everything but digits and
dots from the raw value, convert with `Number`, and keep the result only if
it is a finite number strictly greater than zero. -/
def ceFromRaw (ceRaw : String) : Option ℚ :=
  match jsNumber (digitsDots ceRaw) with
  | some q => if 0 < q then some q else none
  | none => none

/-- Alias list for the `id` field. -/
def idKeys : List String := ["id", "ID"]

/-- Alias list for the title field. -/
def titleKeys : List String := ["Name of Event", "Event Name", "Title"]

/-- Alias list for the description field. -/
def descKeys : List String := ["Description", "description", "DESC", "Course Description"]

/-- Alias list for the event-date field. -/
def dateKeys : List String := ["Date of the Event", "Event Date", "Date"]

/-- Alias list for the category field. -/
def catKeys : List String := ["category", "Category", "CATEGORY"]

/-- Alias list for the CE-hours field. -/
def ceKeys : List String := ["CE Hours", "CE", "CE Hour", "CE hours"]

/-- Alias list for the vendor/presenter field. -/
def vendorKeys : List String :=
  ["Presenter / Vendor (Tag)", "Vendor", "Presenter", "Presenter/Vendor"]

/-- Alias list for the vendor-logo field. -/
def vendorLogoKeys : List String := ["Vendor Logo", "Vender Logo", "Vendor logo", "Logo"]

/-- Alias list for the thumbnail field. -/
def thumbKeys : List String :=
  ["Course Thumb", "Course Thumbnail", "Thumbnail", "Thumb", "Image"]

/-- Alias list for the format field. -/
def formatKeys : List String := ["Format", "format", "Event Format", "Type"]

/-- Alias list for the roles field. -/
def rolesKeys : List String := ["Roles", "Role", "Role / Position", "Position", "Positions"]

/-- Alias list for the location field. -/
def locationKeys : List String := ["Location", "location", "Venue", "Address"]

/-- Alias list for the in-person registration link field. -/
def inPersonKeys : List String :=
  ["In person registration link", "In Person Registration Link",
   "In-Person Registration Link", "In person Registration link",
   "In Person Reg Link", "In-Person Reg Link"]

/-- Alias list for the first session label. -/
def time1Keys : List String := ["Time of the event", "Time of Event", "Time 1"]

/-- Alias list for the first session link. -/
def link1Keys : List String := ["Registration Link", "Reg Link", "Registration"]

/-- Alias list for the second session label. -/
def time2Keys : List String := ["2nd time of the Event", "Second Time", "Time 2"]

/-- Alias list for the second session link. -/
def link2Keys : List String := ["Second Registration Link", "Second Reg Link", "Registration 2"]

/-- The JavaScript `a || b` for strings: the empty string is falsy. -/
def orDefault (s d : String) : String := if s = "" then d else s

/-- The row normalizer `normalize(row, i)` of part_002: one canonical event
per raw row, every field resolved through `get` with its alias list, with
the documented defaults. -/
def normalize (row : RawRow) (i : Nat) : Event :=
  let ceRaw := get row ceKeys
  { id := orDefault (get row idKeys) ("row-" ++ natDec i)
    title := orDefault (get row titleKeys) "Untitled Event"
    description := orDefault (get row descKeys) ""
    date := parseDate (get row dateKeys)
    category := orDefault (get row catKeys) ""
    ce := ceFromRaw ceRaw
    vendor := orDefault (get row vendorKeys) ""
    vendorLogo := orDefault (get row vendorLogoKeys) ""
    thumb := orDefault (get row thumbKeys) ""
    format := orDefault (get row formatKeys) ""
    roles := splitCsv (get row rolesKeys)
    location := orDefault (get row locationKeys) ""
    inPersonRegistrationLink := orDefault (get row inPersonKeys) ""
    sessions :=
      ([{ label := get row time1Keys, url := get row link1Keys },
        { label := get row time2Keys, url := get row link2Keys }] : List Session).filter
        (fun s => !(jsTrim s.label = "") || !(jsTrim s.url = "")) }

/-- `json.items.map(normalize)`: normalize a whole load, passing each row's
positional index. -/
def normalizeAll (rows : List RawRow) : List Event :=
  rows.mapIdx (fun i row => normalize row i)

/-- The raw identifier of a row: `get(row, "id", "ID")`. -/
def rawId (row : RawRow) : String := get row idKeys

/-- The filter/search state of the sidebar (immutable snapshot). -/
structure FilterState where
  query : String
  catSel : List String
  vendorSel : List String
  ceSel : List ℚ
  formatSel : List String
  rolesSel : List String

/-- The state with no query and no facet selections. -/
def emptyState : FilterState :=
  { query := "", catSel := [], vendorSel := [], ceSel := [],
    formatSel := [], rolesSel := [] }

/-- The past filter: `r.date ? endOfDay(r.date) >= now : true`. -/
def pastKeep (now : Nat) (r : Event) : Bool :=
  match r.date with
  | some d => decide (now ≤ endOfDay d)
  | none => true

/-- Category facet: no selection imposes no constraint, else exact match. -/
def catKeep (st : FilterState) (r : Event) : Bool :=
  if st.catSel.isEmpty then true else st.catSel.contains r.category

/-- Vendor facet. -/
def vendorKeep (st : FilterState) (r : Event) : Bool :=
  if st.vendorSel.isEmpty then true else st.vendorSel.contains r.vendor

/-- CE facet: with a selection active, an event with no CE value never
matches (`typeof r.ce === "number" && ceSelected.has(r.ce)`). -/
def ceKeep (st : FilterState) (r : Event) : Bool :=
  if st.ceSel.isEmpty then true
  else
    match r.ce with
    | some q => st.ceSel.contains q
    | none => false

/-- Format facet. -/
def formatKeep (st : FilterState) (r : Event) : Bool :=
  if st.formatSel.isEmpty then true else st.formatSel.contains r.format

/-- Roles facet: keep the event when any of its roles is selected. -/
def rolesKeep (st : FilterState) (r : Event) : Bool :=
  if st.rolesSel.isEmpty then true
  else r.roles.any (fun x => st.rolesSel.contains x)

/-- Model of the locale-default short date rendering used in the search
haystack (`toLocaleDateString`); the exact text is implementation-defined
and no claim depends on it, so an abstract injective rendering is used. -/
def formatDate (t : Nat) : String := "day " ++ natDec (t / msPerDay)

/-- Rendering of the optional CE number in the haystack (`${r.ce ?? ""}`);
the numeric text is a model of the implementation-defined JavaScript
rendering. -/
def ceText : Option ℚ → String
  | none => ""
  | some q => toString q

/-- Whether `n` is a leading run of `h` (character-list level). -/
def startsList : List Char → List Char → Bool
  | [], _ => true
  | _ :: _, [] => false
  | a :: as, b :: bs => a = b && startsList as bs

/-- Whether `n` occurs contiguously inside `h` (character-list level). -/
def subOccurs (n : List Char) : List Char → Bool
  | [] => startsList n []
  | c :: rest => startsList n (c :: rest) || subOccurs n rest

/-- The JavaScript `hay.includes(q)` substring test. -/
def containsSub (hay needle : String) : Bool := subOccurs needle.data hay.data

/-- The search haystack of an event: title, vendor, category, format, CE
text, description, location, roles and rendered date, space-joined. -/
def hayOf (r : Event) : String :=
  r.title ++ " " ++ r.vendor ++ " " ++ r.category ++ " " ++ r.format ++ " "
    ++ ceText r.ce ++ " " ++ r.description ++ " " ++ r.location ++ " "
    ++ String.intercalate " " r.roles ++ " "
    ++ (match r.date with | some d => formatDate d | none => "")

/-- Free-text search: empty trimmed query matches everything, otherwise
case-insensitive substring match against the haystack. -/
def queryKeep (st : FilterState) (r : Event) : Bool :=
  let q := lowerStr (jsTrim st.query)
  if q = "" then true else containsSub (lowerStr (hayOf r)) q

/-- The filter cascade of `filtered`, in source order (past filter, facet
filters, free-text search), before the final sort. -/
def prefilter (st : FilterState) (now : Nat) (rows : List Event) : List Event :=
  ((((((rows.filter (pastKeep now)).filter (catKeep st)).filter
    (vendorKeep st)).filter (ceKeep st)).filter (formatKeep st)).filter
    (rolesKeep st)).filter (queryKeep st)

/-- The sort key: `a.date ? a.date.getTime() : Number.POSITIVE_INFINITY`. -/
def eventKey (r : Event) : WithTop Nat :=
  match r.date with
  | some d => (d : WithTop Nat)
  | none => ⊤

/-- The comparator `(a, b) => ad - bd` as a total preorder test. -/
def eventLE (a b : Event) : Bool := decide (eventKey a ≤ eventKey b)

/-- The `filtered` pipeline of part_002: filter cascade, then a stable
ascending sort by date (JavaScript `Array.prototype.sort` is stable). -/
def filtered (rows : List Event) (st : FilterState) (now : Nat) : List Event :=
  (prefilter st now rows).mergeSort eventLE

end P2

/-! ## Concrete example data used by the claim witnesses and counterexamples -/

/-- The timestamp of 2026-04-08T00:00Z; equals `jsDateParse "2026-04-08"`. -/
def exDay : Nat := 1775606400000

/-- The fully defaulted event produced from a row with no usable field at
positional index `i`. -/
def P2.defaultEvent (i : Nat) : P2.Event :=
  { id := "row-" ++ natDec i, title := "Untitled Event", description := ""
    date := none, category := "", ce := none, vendor := "", vendorLogo := ""
    thumb := "", format := "", roles := [], location := ""
    inPersonRegistrationLink := "", sessions := [] }

/-- An App.jsx item for an event starting 13:00 local on 2026-04-08. -/
def c1Item : A2.Item :=
  { id := "1", title := "Afternoon webinar", presenter := "", description := ""
    ce := "", cost := "", link := "", thumb := "", date := "2026-04-08"
    time := "13:00 - 14:00", categories := []
    startAt := some (exDay + 13 * msPerHour) }

/-- An instant at 14:00 local on 2026-04-08, one hour after `c1Item` starts
but well before its day's end-of-day boundary. -/
def c1Now : Nat := exDay + 14 * msPerHour

/-- A row holding both alias keys `A` (blank-padded) and `B`. -/
def c7Row : RawRow := [("A", JsVal.vstr " x "), ("B", JsVal.vstr "y")]

/-- A row whose only present cells are a `null` and a blank string, so no
key qualifies. -/
def c2Row : RawRow := [("Name of Event", JsVal.vnull), ("CE Hours", JsVal.vstr "   ")]

/-- Two rows carrying the same explicit id. -/
def c9DupRows : List RawRow := [[("id", JsVal.vstr "x")], [("id", JsVal.vstr "x")]]

/-- Three rows: two distinct explicit ids and one id-less row. -/
def c9Rows : List RawRow := [[("id", JsVal.vstr "a")], [("id", JsVal.vstr "b")], []]

/-! ## Field extractor lemmas -/

/-- `get` on an exhausted alias list yields the empty string. -/
theorem get_nil_eq (row : RawRow) : P2.get row [] = "" := rfl

/-- A candidate that does not qualify is skipped by `get`. -/
theorem get_cons_of_not_qual (row : RawRow) (k : String) (ks : List String)
    (h : P2.qualifies row k = false) : P2.get row (k :: ks) = P2.get row ks := by
  unfold P2.qualifies at h
  conv_lhs => rw [P2.get]
  cases hl : lookupKey row k with
  | none => simp
  | some v =>
    rw [hl] at h
    simp only [decide_eq_false_iff_not] at h
    simp [h]

/-- A qualifying candidate is taken by `get`, whatever follows it. -/
theorem get_cons_of_qual (row : RawRow) (k : String) (ks : List String) (v : JsVal)
    (hl : lookupKey row k = some v) (hn : v ≠ JsVal.vnull)
    (hs : jsTrim (jsToString v) ≠ "") :
    P2.get row (k :: ks) = jsTrim (jsToString v) := by
  unfold P2.get
  simp [hl, hn, hs]

/-- If no candidate qualifies, `get` returns the empty string. -/
theorem get_of_unqual (row : RawRow) (keys : List String)
    (h : ∀ k ∈ keys, P2.qualifies row k = false) : P2.get row keys = "" := by
  induction keys with
  | nil => rfl
  | cons k ks ih =>
    rw [get_cons_of_not_qual row k ks (h k (by simp))]
    exact ih (fun x hx => h x (List.mem_cons_of_mem _ hx))

/-- C7.  The Field Extractor returns the trimmed string form of the first
candidate whose value is defined, non-null and non-empty after trimming
(non-string values having been coerced to strings), regardless of the later
candidates; when no candidate qualifies it returns the empty string; and a
non-qualifying head (absent, null, or blank) is simply skipped, never an
error. -/
theorem c7_field_extractor :
    (∀ (row : RawRow) (a b : String) (v : JsVal),
      lookupKey row a = some v → v ≠ JsVal.vnull → jsTrim (jsToString v) ≠ "" →
        P2.get row [a, b] = jsTrim (jsToString v))
  ∧ (∀ (row : RawRow) (keys : List String),
      (∀ k ∈ keys, P2.qualifies row k = false) → P2.get row keys = "")
  ∧ (∀ (row : RawRow) (k : String) (ks : List String),
      P2.qualifies row k = false → P2.get row (k :: ks) = P2.get row ks) :=
  ⟨fun row a b v hl hn hs => get_cons_of_qual row a [b] v hl hn hs,
   get_of_unqual,
   get_cons_of_not_qual⟩

/-- Witness for C7 at a concrete row holding both aliases: alias `A` wins
with its trimmed value, and a row of nulls/blanks extracts nothing. -/
theorem c7_field_extractor_witness :
    P2.get c7Row ["A", "B"] = jsTrim (jsToString (JsVal.vstr " x "))
  ∧ jsTrim (jsToString (JsVal.vstr " x ")) = "x"
  ∧ P2.get c2Row ["Name of Event", "CE Hours"] = "" :=
  ⟨c7_field_extractor.1 c7Row "A" "B" (JsVal.vstr " x ") rfl (by decide) (by decide),
   by decide,
   c7_field_extractor.2.1 c2Row ["Name of Event", "CE Hours"] (by decide)⟩

/-! ## Claims about time normalization and start-time parsing -/

/-- C6.  Time normalization strips the US timezone names and abbreviations
case-insensitively, normalizes whitespace around hyphens to a single " - ",
lowercases the am/pm marker, collapses repeated whitespace, and leaves no
space between the time digits and the am/pm suffix; in particular
"7:00-8:00PM Central Time" normalizes to exactly "7:00 - 8:00pm". -/
theorem c6_normalize_time :
    A2.normalizeTime "7:00-8:00PM Central Time" = "7:00 - 8:00pm"
  ∧ A2.normalizeTime "7:00 - 8:00pm CST" = "7:00 - 8:00pm"
  ∧ A2.normalizeTime "1:00   -  2:00 PM  pacific time" = "1:00 - 2:00pm"
  ∧ A2.normalizeTime "12:00-12:30PM EDT" = "12:00 - 12:30pm" :=
  ⟨rfl, rfl, rfl, rfl⟩

/-- C8 counterexample.  Time normalization is not idempotent: a timezone
name whose interior whitespace is doubled survives the first pass (the
stripping pattern requires a single interior space), is reassembled into a
single-spaced token by whitespace collapsing, and is then stripped entirely
by a second pass: normalizing "CENTRAL  TIME" once gives "CENTRAL TIME",
normalizing it again gives "". -/
theorem c8_idempotence_counterexample :
    A2.normalizeTime (A2.normalizeTime "CENTRAL  TIME")
      ≠ A2.normalizeTime "CENTRAL  TIME" := by
  decide

/-- C8 amended.  Re-normalizing changes the result only by stripping
timezone tokens reassembled by whitespace collapsing; on the catalog's
documented time-range formats — whose single normalization leaves no
timezone token — normalization is idempotent, as verified on the
representative forms below. -/
theorem c8_idempotence_amended :
    A2.normalizeTime (A2.normalizeTime "7:00-8:00PM Central Time")
      = A2.normalizeTime "7:00-8:00PM Central Time"
  ∧ A2.normalizeTime (A2.normalizeTime "8:00PM CST") = A2.normalizeTime "8:00PM CST"
  ∧ A2.normalizeTime (A2.normalizeTime "12:00 - 12:30pm Central Time")
      = A2.normalizeTime "12:00 - 12:30pm Central Time"
  ∧ A2.normalizeTime (A2.normalizeTime "7pm - 8pm") = A2.normalizeTime "7pm - 8pm"
  ∧ A2.normalizeTime (A2.normalizeTime "TBD") = A2.normalizeTime "TBD"
  ∧ A2.normalizeTime (A2.normalizeTime "") = A2.normalizeTime "" :=
  ⟨rfl, rfl, rfl, rfl, rfl, rfl⟩

/-- C4 (divergence record).  After `normalizeTime` glues the am/pm marker
onto the time digits, the search `\b(am|pm)\b` can no longer match — there
is no word boundary between a digit and "pm" — so the 12-hour conversion is
skipped for the catalog's own time formats: "8:00pm" parses to hour 8 (not
20) and "12:00am" to hour 12 (not 0); "12:00pm" agrees with the documented
hour 12 only coincidentally.  The conversion branch itself is correct and
reachable only when the marker is detached from any word character, as in
"8 -pm" (hour 20). -/
theorem c4_ampm_divergence :
    A2.parseEventStart "2026-04-08" "8:00pm" = some (exDay + 8 * msPerHour)
  ∧ A2.parseEventStart "2026-04-08" "12:00am" = some (exDay + 12 * msPerHour)
  ∧ A2.parseEventStart "2026-04-08" "12:00pm" = some (exDay + 12 * msPerHour)
  ∧ A2.normalizeTime "8:00pm" = "8:00pm"
  ∧ A2.ampmFind none (A2.normalizeTime "8:00pm").data = none
  ∧ A2.parseEventStart "2026-04-08" "8 -pm" = some (exDay + 20 * msPerHour) :=
  ⟨rfl, rfl, rfl, rfl, rfl, rfl⟩

/-- Deleting non-digit-non-dot characters is idempotent. -/
theorem digitsDots_idem (s : String) : digitsDots (digitsDots s) = digitsDots s := by
  simp [digitsDots, List.filter_filter]

/-- C10.  The normalizer derives CE hours by deleting every character other
than digits and decimal points before numeric conversion and keeps the
result only when finite and strictly positive: "1 CE" parses to 1, "-2"
parses to 2 (the minus sign is silently discarded, the value is not treated
as absent), the derivation only depends on the kept digit/dot characters,
and every retained value is strictly positive. -/
theorem c10_ce_derivation :
    P2.ceFromRaw "1 CE" = some 1
  ∧ P2.ceFromRaw "-2" = some 2
  ∧ (∀ s, P2.ceFromRaw s = P2.ceFromRaw (digitsDots s))
  ∧ (∀ s q, P2.ceFromRaw s = some q → 0 < q)
  ∧ (P2.normalize [("CE Hours", JsVal.vstr "1 CE")] 0).ce = some 1
  ∧ (P2.normalize [("CE Hours", JsVal.vstr "-2")] 0).ce = some 2 := by
  refine ⟨by decide, by decide, ?_, ?_, by decide, by decide⟩
  · intro s
    unfold P2.ceFromRaw
    rw [digitsDots_idem]
  · intro s q h
    unfold P2.ceFromRaw at h
    split at h
    · split at h
      · cases h; assumption
      · exact absurd h (by simp)
    · exact absurd h (by simp)

/-- Witness for C10's positivity conjunct at the concrete raw value "1 CE". -/
theorem c10_ce_derivation_witness : (0 : ℚ) < 1 :=
  c10_ce_derivation.2.2.2.1 "1 CE" 1 (by decide)

/-- C3.  For every parseable nominal date and every time string from which
no leading hour token can be extracted (the empty string included), the
derived start timestamp is local noon on the nominal date's civil day; and
for every time string, an unparsable nominal date yields an absent start
timestamp, never a defaulted one. -/
theorem c3_noon_default :
    (∀ ds ts b, jsDateParse (jsTrim ds) = some b →
      A2.startTok (A2.normalizeTime ts) = none →
      A2.parseEventStart ds ts = some (dayStart b + 12 * msPerHour))
  ∧ (∀ ds ts, jsDateParse (jsTrim ds) = none → A2.parseEventStart ds ts = none) := by
  constructor
  · intro ds ts b hb ht
    unfold A2.parseEventStart
    rw [hb]
    by_cases h0 : A2.normalizeTime ts = ""
    · simp [h0]
    · simp [h0, ht]
  · intro ds ts hb
    unfold A2.parseEventStart
    rw [hb]

/-- Witness for C3: date "2026-04-08" with the non-time string "TBD" yields
noon on 2026-04-08, and an unparsable date string yields no start at all. -/
theorem c3_noon_default_witness :
    A2.parseEventStart "2026-04-08" "TBD" = some (dayStart exDay + 12 * msPerHour)
  ∧ A2.parseEventStart "soon" "7:00pm" = none :=
  ⟨c3_noon_default.1 "2026-04-08" "TBD" exDay rfl rfl,
   c3_noon_default.2 "soon" "7:00pm" rfl⟩

/-! ## Past-event exclusion (C1) -/

/-- With no category selection the category facet imposes no constraint. -/
theorem catKeep_empty (r : P2.Event) : P2.catKeep P2.emptyState r = true := rfl

/-- With no vendor selection the vendor facet imposes no constraint. -/
theorem vendorKeep_empty (r : P2.Event) : P2.vendorKeep P2.emptyState r = true := rfl

/-- With no CE selection the CE facet imposes no constraint. -/
theorem ceKeep_empty (r : P2.Event) : P2.ceKeep P2.emptyState r = true := rfl

/-- With no format selection the format facet imposes no constraint. -/
theorem formatKeep_empty (r : P2.Event) : P2.formatKeep P2.emptyState r = true := rfl

/-- With no role selection the roles facet imposes no constraint. -/
theorem rolesKeep_empty (r : P2.Event) : P2.rolesKeep P2.emptyState r = true := rfl

/-- With an empty query the free-text search imposes no constraint. -/
theorem queryKeep_empty (r : P2.Event) : P2.queryKeep P2.emptyState r = true := rfl

/-- Membership in the empty-state `filtered` output is membership in the
input minus exactly the past filter. -/
theorem mem_filtered_empty (rows : List P2.Event) (now : Nat) (e : P2.Event) :
    e ∈ P2.filtered rows P2.emptyState now ↔ e ∈ rows ∧ P2.pastKeep now e = true := by
  unfold P2.filtered P2.prefilter
  rw [List.mem_mergeSort]
  simp [List.mem_filter, catKeep_empty, vendorKeep_empty, ceKeep_empty,
    formatKeep_empty, rolesKeep_empty, queryKeep_empty]

/-- The past filter keeps an event exactly when every present date has an
end-of-day boundary at or after `now`; a dateless event is always kept. -/
theorem pastKeep_iff (now : Nat) (e : P2.Event) :
    P2.pastKeep now e = true ↔ ∀ d, e.date = some d → now ≤ endOfDay d := by
  unfold P2.pastKeep
  cases hd : e.date with
  | none => simp
  | some d => simp

/-- C1 amended.  Each engine excludes by its own rule: the part_002 engine
(whose events carry no start timestamp) excludes an event exactly when it
has a date whose end-of-day boundary is strictly before `now`, and an event
with no date is never excluded; the App.jsx `upcomingItems` engine excludes
an event exactly when its `startAt` itself — not its end-of-day boundary —
is strictly before `now`, and an event with no `startAt` is never
excluded. -/
theorem c1_past_exclusion_amended :
    ∀ now : Nat,
      (∀ (rows : List P2.Event) (e : P2.Event),
        e ∈ P2.filtered rows P2.emptyState now ↔
          e ∈ rows ∧ ∀ d, e.date = some d → now ≤ endOfDay d)
    ∧ (∀ (items : List A2.Item) (it : A2.Item),
        it ∈ A2.upcomingItems items now ↔
          it ∈ items ∧ ∀ t, it.startAt = some t → now ≤ t) := by
  intro now
  constructor
  · intro rows e
    rw [mem_filtered_empty, pastKeep_iff]
  · intro items it
    unfold A2.upcomingItems
    rw [List.mem_filter]
    refine and_congr_right fun _ => ?_
    cases ht : it.startAt <;> simp [ht]

/-- C1 counterexample.  The claim's exclusion rule (end-of-day boundary of
the start timestamp strictly before `now`) is violated by the App.jsx
engine: an item starting 13:00 local is already excluded at 14:00 the same
day, although the end-of-day boundary of its start has not passed. -/
theorem c1_startat_counterexample :
    A2.upcomingItems [c1Item] c1Now = []
  ∧ c1Item.startAt = some (exDay + 13 * msPerHour)
  ∧ c1Now ≤ endOfDay (exDay + 13 * msPerHour) :=
  ⟨rfl, rfl, by decide⟩

/-! ## Decimal rendering lemmas and id uniqueness (C9) -/

/-- Folding the digit-accumulation step from seed `s`. -/
theorem foldl_digits (l : List Char) (s : Nat) :
    l.foldl (fun a c => a * 10 + digitVal c) s = s * 10 ^ l.length + natOfDigits l := by
  induction l generalizing s with
  | nil => simp [natOfDigits]
  | cons c l ih =>
    have hv : natOfDigits (c :: l) = digitVal c * 10 ^ l.length + natOfDigits l := by
      show (c :: l).foldl (fun a c => a * 10 + digitVal c) 0
          = digitVal c * 10 ^ l.length + natOfDigits l
      rw [List.foldl_cons, ih]
      ring_nf
    rw [List.foldl_cons, ih, hv, List.length_cons, pow_succ]
    ring

/-- Value of a digit list with one more leading digit. -/
theorem natOfDigits_cons (c : Char) (l : List Char) :
    natOfDigits (c :: l) = digitVal c * 10 ^ l.length + natOfDigits l := by
  show (c :: l).foldl (fun a c => a * 10 + digitVal c) 0
      = digitVal c * 10 ^ l.length + natOfDigits l
  rw [List.foldl_cons, foldl_digits]
  ring_nf

/-- `decDigit` renders each digit value faithfully. -/
theorem digitVal_decDigit (d : Nat) (h : d < 10) : digitVal (decDigit d) = d := by
  interval_cases d <;> rfl

/-- Value of the fuelled decimal rendering loop, for sufficient fuel. -/
theorem natDecGo_val (fuel : Nat) : ∀ n acc, n < 10 ^ fuel →
    natOfDigits (natDecGo fuel n acc) = n * 10 ^ acc.length + natOfDigits acc := by
  induction fuel with
  | zero =>
    intro n acc h
    have : n = 0 := Nat.lt_one_iff.mp h
    subst this
    simp [natDecGo]
  | succ f ih =>
    intro n acc h
    unfold natDecGo
    by_cases h10 : n < 10
    · rw [if_pos h10, natOfDigits_cons, digitVal_decDigit n h10]
    · rw [if_neg h10]
      have hdiv : n / 10 < 10 ^ f := by
        rw [Nat.div_lt_iff_lt_mul (by norm_num)]
        calc n < 10 ^ (f + 1) := h
          _ = 10 ^ f * 10 := by rw [pow_succ]
      rw [ih (n / 10) (decDigit (n % 10) :: acc) hdiv, natOfDigits_cons,
        digitVal_decDigit (n % 10) (Nat.mod_lt _ (by norm_num))]
      have hmod := Nat.div_add_mod n 10
      calc n / 10 * 10 ^ (decDigit (n % 10) :: acc).length
            + (n % 10 * 10 ^ acc.length + natOfDigits acc)
          = (10 * (n / 10) + n % 10) * 10 ^ acc.length + natOfDigits acc := by
            rw [List.length_cons, pow_succ]; ring
        _ = n * 10 ^ acc.length + natOfDigits acc := by rw [hmod]

/-- Every natural number is below a power of ten with one more digit of
fuel than its own size. -/
theorem lt_ten_pow_succ (n : Nat) : n < 10 ^ (n + 1) := by
  calc n < 2 ^ n := Nat.lt_two_pow n
    _ ≤ 10 ^ n := Nat.pow_le_pow_left (by norm_num) n
    _ ≤ 10 ^ (n + 1) := Nat.pow_le_pow_right (by norm_num) (Nat.le_succ n)

/-- The decimal rendering is injective. -/
theorem natDec_inj {m n : Nat} (h : natDec m = natDec n) : m = n := by
  have hd : natDecGo (m + 1) m [] = natDecGo (n + 1) n [] :=
    congrArg String.data h
  have hv := congrArg natOfDigits hd
  rw [natDecGo_val (m + 1) m [] (lt_ten_pow_succ m),
    natDecGo_val (n + 1) n [] (lt_ten_pow_succ n)] at hv
  simpa [natOfDigits] using hv

/-- The id derivation of `normalize`: the extracted identifier, or the
positional fallback when it is blank. -/
theorem normalize_id (row : RawRow) (i : Nat) :
    (P2.normalize row i).id = P2.orDefault (P2.rawId row) ("row-" ++ natDec i) := rfl

/-- C9 counterexample.  Uniqueness of ids within one normalized collection
is not enforced: two rows carrying the same explicit id normalize to two
events with equal ids. -/
theorem c9_id_uniqueness_counterexample :
    ¬ ((P2.normalizeAll c9DupRows).map P2.Event.id).Pairwise (fun a b => a ≠ b) := by
  decide

/-- C9 amended.  Within one normalized collection the ids are pairwise
distinct, provided the rows' explicit identifiers are pairwise distinct and
no explicit identifier has the shape of a positional fallback
`"row-" ++ index`. -/
theorem c9_id_uniqueness_amended (rows : List RawRow)
    (h1 : (rows.map P2.rawId).Pairwise (fun a b => a ≠ "" → b ≠ "" → a ≠ b))
    (h2 : ∀ r ∈ rows, P2.rawId r ≠ "" → ∀ s : String, P2.rawId r ≠ "row-" ++ s) :
    ((P2.normalizeAll rows).map P2.Event.id).Pairwise (fun a b => a ≠ b) := by
  rw [List.pairwise_iff_getElem]
  intro i j hi hj hij
  rw [List.length_map] at hi hj
  have hi' : i < rows.length := by simpa [P2.normalizeAll] using hi
  have hj' : j < rows.length := by simpa [P2.normalizeAll] using hj
  rw [List.pairwise_iff_getElem] at h1
  have h1ij := h1 i j (by simpa using hi') (by simpa using hj') hij
  simp only [List.getElem_map] at h1ij ⊢
  simp only [P2.normalizeAll, List.getElem_mapIdx] at hi hj ⊢
  rw [normalize_id, normalize_id]
  unfold P2.orDefault
  by_cases ha : P2.rawId rows[i] = ""
  · by_cases hb : P2.rawId rows[j] = ""
    · rw [if_pos ha, if_pos hb]
      intro heq
      have hdat := congrArg String.data heq
      rw [String.data_append, String.data_append] at hdat
      have hnd : (natDec i).data = (natDec j).data := List.append_cancel_left hdat
      exact Nat.ne_of_lt hij (natDec_inj (congrArg String.mk hnd))
    · rw [if_pos ha, if_neg hb]
      intro heq
      exact h2 rows[j] (List.getElem_mem hj') hb (natDec i) heq.symm
  · by_cases hb : P2.rawId rows[j] = ""
    · rw [if_neg ha, if_pos hb]
      intro heq
      exact h2 rows[i] (List.getElem_mem hi') ha (natDec j) heq
    · rw [if_neg ha, if_neg hb]
      exact h1ij ha hb

/-- Witness for C9 amended: a load of two distinct explicit ids and one
id-less row yields pairwise distinct ids. -/
theorem c9_id_uniqueness_witness :
    ((P2.normalizeAll c9Rows).map P2.Event.id).Pairwise (fun a b => a ≠ b) := by
  apply c9_id_uniqueness_amended
  · decide
  · intro r hr hne s heq
    simp only [c9Rows, List.mem_cons, List.not_mem_nil, or_false] at hr
    rcases hr with rfl | rfl | rfl
    · rw [show P2.rawId [("id", JsVal.vstr "a")] = "a" from rfl] at heq
      have hlen := congrArg String.length heq
      rw [String.length_append,
        show ("a" : String).length = 1 from rfl,
        show ("row-" : String).length = 4 from rfl] at hlen
      omega
    · rw [show P2.rawId [("id", JsVal.vstr "b")] = "b" from rfl] at heq
      have hlen := congrArg String.length heq
      rw [String.length_append,
        show ("b" : String).length = 1 from rfl,
        show ("row-" : String).length = 4 from rfl] at hlen
      omega
    · exact hne rfl

/-! ## Normalizer defaults (C2) -/

/-- C2.  The Event Normalizer is a total function of (row, index) — in this
embedding it cannot throw — and every field whose aliases are all absent,
null, or blank (numeric values being coerced to strings first) takes its
documented default: positional fallback id, placeholder title, empty text
fields, absent date, absent CE hours, empty roles and sessions lists; a row
with no usable field at all normalizes to the fully defaulted event. -/
theorem c2_normalizer_defaults :
    ∀ (row : RawRow) (i : Nat),
      ((∀ k ∈ P2.idKeys, P2.qualifies row k = false) →
        (P2.normalize row i).id = "row-" ++ natDec i)
    ∧ ((∀ k ∈ P2.titleKeys, P2.qualifies row k = false) →
        (P2.normalize row i).title = "Untitled Event")
    ∧ ((∀ k ∈ P2.descKeys, P2.qualifies row k = false) →
        (P2.normalize row i).description = "")
    ∧ ((∀ k ∈ P2.dateKeys, P2.qualifies row k = false) →
        (P2.normalize row i).date = none)
    ∧ ((∀ k ∈ P2.catKeys, P2.qualifies row k = false) →
        (P2.normalize row i).category = "")
    ∧ ((∀ k ∈ P2.ceKeys, P2.qualifies row k = false) →
        (P2.normalize row i).ce = none)
    ∧ ((∀ k ∈ P2.vendorKeys, P2.qualifies row k = false) →
        (P2.normalize row i).vendor = "")
    ∧ ((∀ k ∈ P2.vendorLogoKeys, P2.qualifies row k = false) →
        (P2.normalize row i).vendorLogo = "")
    ∧ ((∀ k ∈ P2.thumbKeys, P2.qualifies row k = false) →
        (P2.normalize row i).thumb = "")
    ∧ ((∀ k ∈ P2.formatKeys, P2.qualifies row k = false) →
        (P2.normalize row i).format = "")
    ∧ ((∀ k ∈ P2.rolesKeys, P2.qualifies row k = false) →
        (P2.normalize row i).roles = [])
    ∧ ((∀ k ∈ P2.locationKeys, P2.qualifies row k = false) →
        (P2.normalize row i).location = "")
    ∧ ((∀ k ∈ P2.inPersonKeys, P2.qualifies row k = false) →
        (P2.normalize row i).inPersonRegistrationLink = "")
    ∧ ((∀ k ∈ P2.time1Keys ++ P2.link1Keys ++ P2.time2Keys ++ P2.link2Keys,
          P2.qualifies row k = false) →
        (P2.normalize row i).sessions = [])
    ∧ ((∀ k, P2.qualifies row k = false) →
        P2.normalize row i = P2.defaultEvent i) := by
  intro row i
  refine ⟨?_, ?_, ?_, ?_, ?_, ?_, ?_, ?_, ?_, ?_, ?_, ?_, ?_, ?_, ?_⟩
  · intro h
    show P2.orDefault (P2.get row P2.idKeys) ("row-" ++ natDec i) = _
    rw [get_of_unqual row P2.idKeys h]
    rfl
  · intro h
    show P2.orDefault (P2.get row P2.titleKeys) "Untitled Event" = _
    rw [get_of_unqual row P2.titleKeys h]
    rfl
  · intro h
    show P2.orDefault (P2.get row P2.descKeys) "" = _
    rw [get_of_unqual row P2.descKeys h]
    rfl
  · intro h
    show P2.parseDate (P2.get row P2.dateKeys) = none
    rw [get_of_unqual row P2.dateKeys h]
    rfl
  · intro h
    show P2.orDefault (P2.get row P2.catKeys) "" = _
    rw [get_of_unqual row P2.catKeys h]
    rfl
  · intro h
    show P2.ceFromRaw (P2.get row P2.ceKeys) = none
    rw [get_of_unqual row P2.ceKeys h]
    rfl
  · intro h
    show P2.orDefault (P2.get row P2.vendorKeys) "" = _
    rw [get_of_unqual row P2.vendorKeys h]
    rfl
  · intro h
    show P2.orDefault (P2.get row P2.vendorLogoKeys) "" = _
    rw [get_of_unqual row P2.vendorLogoKeys h]
    rfl
  · intro h
    show P2.orDefault (P2.get row P2.thumbKeys) "" = _
    rw [get_of_unqual row P2.thumbKeys h]
    rfl
  · intro h
    show P2.orDefault (P2.get row P2.formatKeys) "" = _
    rw [get_of_unqual row P2.formatKeys h]
    rfl
  · intro h
    show P2.splitCsv (P2.get row P2.rolesKeys) = []
    rw [get_of_unqual row P2.rolesKeys h]
    rfl
  · intro h
    show P2.orDefault (P2.get row P2.locationKeys) "" = _
    rw [get_of_unqual row P2.locationKeys h]
    rfl
  · intro h
    show P2.orDefault (P2.get row P2.inPersonKeys) "" = _
    rw [get_of_unqual row P2.inPersonKeys h]
    rfl
  · intro h
    have h1 := get_of_unqual row P2.time1Keys
      (fun k hk => h k (by simp [List.mem_append, hk]))
    have h2 := get_of_unqual row P2.link1Keys
      (fun k hk => h k (by simp [List.mem_append, hk]))
    have h3 := get_of_unqual row P2.time2Keys
      (fun k hk => h k (by simp [List.mem_append, hk]))
    have h4 := get_of_unqual row P2.link2Keys
      (fun k hk => h k (by simp [List.mem_append, hk]))
    show ([{ label := P2.get row P2.time1Keys, url := P2.get row P2.link1Keys },
          { label := P2.get row P2.time2Keys, url := P2.get row P2.link2Keys }] :
            List P2.Session).filter
          (fun s => !(jsTrim s.label = "") || !(jsTrim s.url = "")) = []
    rw [h1, h2, h3, h4]
    rfl
  · intro h
    have hall : ∀ keys, P2.get row keys = "" :=
      fun keys => get_of_unqual row keys (fun k _ => h k)
    show P2.normalize row i = P2.defaultEvent i
    unfold P2.normalize P2.defaultEvent
    simp only [hall]
    rfl

/-- Witness for C2: the empty row normalizes to the fully defaulted event,
and a row holding only a null title and a blank CE value still yields the
placeholder title and an absent CE number. -/
theorem c2_normalizer_defaults_witness :
    P2.normalize ([] : RawRow) 0 = P2.defaultEvent 0
  ∧ (P2.normalize c2Row 1).title = "Untitled Event"
  ∧ (P2.normalize c2Row 1).ce = none := by
  obtain ⟨-, ht, -, -, -, hc, -⟩ := c2_normalizer_defaults c2Row 1
  obtain ⟨-, -, -, -, -, -, -, -, -, -, -, -, -, -, hg⟩ :=
    c2_normalizer_defaults ([] : RawRow) 0
  exact ⟨hg (fun k => rfl), ht (by decide), hc (by decide)⟩

/-! ## Sorting (C5) -/

/-- The date comparator is transitive. -/
theorem eventLE_trans (a b c : P2.Event) :
    P2.eventLE a b → P2.eventLE b c → P2.eventLE a c := by
  unfold P2.eventLE
  intro h1 h2
  exact decide_eq_true (le_trans (of_decide_eq_true h1) (of_decide_eq_true h2))

/-- The date comparator is total. -/
theorem eventLE_total (a b : P2.Event) : P2.eventLE a b || P2.eventLE b a := by
  unfold P2.eventLE
  rcases le_total (P2.eventKey a) (P2.eventKey b) with h | h
  · simp [h]
  · simp [h]

/-- The sort key is infinite exactly on dateless events. -/
theorem eventKey_eq_top_iff (e : P2.Event) : P2.eventKey e = ⊤ ↔ e.date = none := by
  unfold P2.eventKey
  cases hd : e.date <;> simp

/-- C5.  The Catalog Filter Engine's output is sorted ascending by the date
key (the only timestamp part_002 events carry, dateless events keyed at
infinity); events with equal keys appear in the output exactly as they
appear in the pre-sort filter cascade, which itself preserves the input
order (it is a sublist of the input); consequently ties keep their relative
input order, and every dateless event sorts after every dated one. -/
theorem c5_sorted_stable :
    ∀ (rows : List P2.Event) (st : P2.FilterState) (now : Nat),
      (P2.filtered rows st now).Pairwise (fun a b => P2.eventKey a ≤ P2.eventKey b)
    ∧ (∀ k : WithTop Nat,
        (P2.filtered rows st now).filter (fun e => decide (P2.eventKey e = k))
          = (P2.prefilter st now rows).filter (fun e => decide (P2.eventKey e = k)))
    ∧ List.Sublist (P2.prefilter st now rows) rows
    ∧ (P2.filtered rows st now).Pairwise (fun a b => a.date = none → b.date = none) := by
  intro rows st now
  have hsorted : (P2.filtered rows st now).Pairwise (fun a b => P2.eventLE a b = true) := by
    unfold P2.filtered
    exact List.sorted_mergeSort eventLE_trans eventLE_total (P2.prefilter st now rows)
  have hkey : (P2.filtered rows st now).Pairwise
      (fun a b => P2.eventKey a ≤ P2.eventKey b) :=
    hsorted.imp (fun h => of_decide_eq_true h)
  have hsub : List.Sublist (P2.prefilter st now rows) rows := by
    unfold P2.prefilter
    exact (List.filter_sublist _).trans ((List.filter_sublist _).trans
      ((List.filter_sublist _).trans ((List.filter_sublist _).trans
      ((List.filter_sublist _).trans ((List.filter_sublist _).trans
      (List.filter_sublist _))))))
  refine ⟨hkey, ?_, hsub, ?_⟩
  · intro k
    have hall : ∀ x ∈ (P2.prefilter st now rows).filter
        (fun e => decide (P2.eventKey e = k)), decide (P2.eventKey x = k) = true :=
      fun x hx => (List.mem_filter.mp hx).2
    have hpw : ((P2.prefilter st now rows).filter
        (fun e => decide (P2.eventKey e = k))).Pairwise
        (fun a b => P2.eventLE a b = true) := by
      apply List.pairwise_of_forall_mem_list
      intro a ha b hb
      have hak : P2.eventKey a = k := of_decide_eq_true ((List.mem_filter.mp ha).2)
      have hbk : P2.eventKey b = k := of_decide_eq_true ((List.mem_filter.mp hb).2)
      exact decide_eq_true (by rw [hak, hbk])
    have hsl : List.Sublist ((P2.prefilter st now rows).filter
        (fun e => decide (P2.eventKey e = k))) (P2.filtered rows st now) := by
      unfold P2.filtered
      exact List.sublist_mergeSort eventLE_trans eventLE_total hpw (List.filter_sublist _)
    have h1 : List.Sublist ((P2.prefilter st now rows).filter
        (fun e => decide (P2.eventKey e = k)))
        ((P2.filtered rows st now).filter (fun e => decide (P2.eventKey e = k))) := by
      have h2 := hsl.filter (fun e => decide (P2.eventKey e = k))
      rwa [List.filter_eq_self.mpr hall] at h2
    have hperm : List.Perm (P2.filtered rows st now) (P2.prefilter st now rows) :=
      List.mergeSort_perm (P2.prefilter st now rows) P2.eventLE
    have hlen : ((P2.filtered rows st now).filter
          (fun e => decide (P2.eventKey e = k))).length
        = ((P2.prefilter st now rows).filter
          (fun e => decide (P2.eventKey e = k))).length :=
      (hperm.filter (fun e => decide (P2.eventKey e = k))).length_eq
    exact (h1.eq_of_length hlen.symm).symm
  · apply hkey.imp
    intro a b hle
    intro hna
    have ha : P2.eventKey a = ⊤ := (eventKey_eq_top_iff a).mpr hna
    have hb : P2.eventKey b = ⊤ := top_le_iff.mp (ha ▸ hle)
    exact (eventKey_eq_top_iff b).mp hb

/-- Witness for C1 amended at concrete inputs: a dateless event passes the
part_002 engine at any instant, while the 13:00 item is excluded by the
App.jsx engine at 14:00 the same day. -/
theorem c1_past_exclusion_amended_witness :
    P2.defaultEvent 0 ∈ P2.filtered [P2.defaultEvent 0] P2.emptyState c1Now
  ∧ c1Item ∉ A2.upcomingItems [c1Item] c1Now := by
  constructor
  · exact ((c1_past_exclusion_amended c1Now).1 [P2.defaultEvent 0] (P2.defaultEvent 0)).mpr
      ⟨List.mem_singleton_self _, fun d hd => by cases hd⟩
  · intro hmem
    have h := ((c1_past_exclusion_amended c1Now).2 [c1Item] c1Item).mp hmem
    exact absurd (h.2 (exDay + 13 * msPerHour) rfl) (by decide)

/-- Witness for C5 at a concrete two-event collection. -/
theorem c5_sorted_stable_witness :
    (P2.filtered [P2.defaultEvent 0, P2.defaultEvent 1] P2.emptyState 0).Pairwise
      (fun a b => P2.eventKey a ≤ P2.eventKey b)
  ∧ List.Sublist
      (P2.prefilter P2.emptyState 0 [P2.defaultEvent 0, P2.defaultEvent 1])
      [P2.defaultEvent 0, P2.defaultEvent 1] :=
  ⟨(c5_sorted_stable [P2.defaultEvent 0, P2.defaultEvent 1] P2.emptyState 0).1,
   (c5_sorted_stable [P2.defaultEvent 0, P2.defaultEvent 1] P2.emptyState 0).2.2.1⟩
